import Mathlib

/-!
# Verification of the command-execution and session-state core

Shallow embedding of the repository's core (`src/bot.py`, `src/command_runner.py`,
`src/gemini_client.py`) in Lean 4, together with theorems settling the frozen
claims about the natural-language specification.

Python strings are modelled as `List Char` (`PyStr`).  Filesystem facts that the
code queries at run time (`os.getcwd()`, the configured `WORK_DIR`, and
`os.path.isdir`) are gathered in an `Env` record; the pure path functions
(`os.path.join`, `os.path.normpath`, `os.path.abspath`, `os.path.relpath` for
the POSIX flavour used on the unix family) are implemented concretely below,
following the CPython `posixpath` algorithms.
-/

namespace MyComputer

/-- Python strings, modelled as lists of characters. -/
abbrev PyStr := List Char

/-- Embed a Lean string literal as a `PyStr`. -/
def str (s : String) : PyStr := s.data

/-- Python `str.isspace` / the regex class `\s` for the ASCII characters that
occur in this code base: space, tab, newline, carriage return, vertical tab,
form feed. -/
def pyIsSpace (c : Char) : Bool :=
  c = ' ' || c = '\t' || c = '\n' || c = '\r' || c = '\x0b' || c = '\x0c'

/-- Python `str.strip()` (no argument): remove leading and trailing whitespace. -/
def pyStrip (s : PyStr) : PyStr :=
  ((s.dropWhile pyIsSpace).reverse.dropWhile pyIsSpace).reverse

/-- Python `str.strip(c)` for a single-character argument `c`: remove leading
and trailing occurrences of that character. -/
def pyStripChar (c : Char) (s : PyStr) : PyStr :=
  ((s.dropWhile (· = c)).reverse.dropWhile (· = c)).reverse

/-- Decimal digits of a natural number, least significant first; the first
argument is structural fuel (instantiated with the number itself). -/
def natToDecimalRevAux : Nat → Nat → PyStr
  | _, 0 => []
  | 0, _ + 1 => []
  | fuel + 1, n + 1 =>
      Char.ofNat (48 + (n + 1) % 10) :: natToDecimalRevAux fuel ((n + 1) / 10)

/-- Decimal digits of a natural number, least significant first. -/
def natToDecimalRev (n : Nat) : PyStr := natToDecimalRevAux n n

/-- Decimal rendering of a natural number, as Python `str(n)` produces it. -/
def natToDecimal (n : Nat) : PyStr :=
  if n = 0 then ['0'] else (natToDecimalRev n).reverse

/-- Decimal rendering of a Python `int` (possibly negative), as `str(i)`. -/
def intToDecimal (i : Int) : PyStr :=
  if i < 0 then '-' :: natToDecimal i.natAbs else natToDecimal i.toNat

/-! ## IEEE-754 double arithmetic for the slice widths

`summarize_output` computes its head and tail widths as `int(limit * 0.6)` and
`int(limit * 0.35)` where `limit` is a Python `int` and `0.6`, `0.35` are
binary64 doubles.  Python converts `limit` to a double (round to nearest,
ties to even), multiplies by the double constant (one correctly rounded
binary64 multiplication), and truncates toward zero.  This differs from the
exact rational floor at many limits (e.g. `int(180 * 0.35) = 62`, not 63), so
the computation is modelled exactly below with integer arithmetic.  The
doubles `0.6` and `0.35` are the rationals `mant06 / 2^53` and
`mant035 / 2^53`. -/

/-- Number of binary digits of a natural number (`0` for `0`); the first
argument is structural fuel, instantiated with the number itself. -/
def bitLenAux : Nat → Nat → Nat
  | _, 0 => 0
  | 0, _ + 1 => 0
  | fuel + 1, n + 1 => bitLenAux fuel ((n + 1) / 2) + 1

/-- Number of binary digits of a natural number. -/
def bitLen (n : Nat) : Nat := bitLenAux n n

/-- Round `N / 2 ^ s` to the nearest integer, ties to even (the IEEE-754
default rounding of a 53-bit significand from the exact value). -/
def rnMantissa (N s : Nat) : Nat :=
  let m0 := N / 2 ^ s
  let r := N % 2 ^ s
  let half := 2 ^ (s - 1)
  if half < r then m0 + 1
  else if r < half then m0
  else if m0 % 2 = 0 then m0 else m0 + 1

/-- The integer value of the binary64 double nearest to the integer `N`
(round to nearest, ties to even): exact below 2^53, otherwise the significand
is rounded to 53 bits.  (Models CPython's int→float conversion; the overflow
to `OverflowError` beyond 2^1024 is outside the modelled domain.) -/
def roundFloat53 (N : Nat) : Nat :=
  if bitLen N ≤ 53 then N
  else rnMantissa N (bitLen N - 53) * 2 ^ (bitLen N - 53)

/-- `int(x)` where `x` is the correctly rounded binary64 value of the exact
rational `N / 2 ^ 53`: round the significand to 53 bits, then truncate the
(non-negative) result toward zero. -/
def rnTrunc53 (N : Nat) : Nat :=
  if bitLen N ≤ 53 then N / 2 ^ 53
  else rnMantissa N (bitLen N - 53) * 2 ^ (bitLen N - 53) / 2 ^ 53

/-- The significand of the double `0.6 = 5404319552844595 / 2^53`. -/
def mant06 : Nat := 5404319552844595

/-- The significand of the double `0.35 = 3152519739159347 / 2^53`. -/
def mant035 : Nat := 3152519739159347

/-- Python `int(n * c)` for an integer `n` and a double constant
`c = mant / 2^53`: convert `n` to a double, multiply (one rounding of the
exact product), truncate. -/
def pyIntMulFloat (n mant : Nat) : Nat := rnTrunc53 (roundFloat53 n * mant)

/-! ## Output Summarizer (`src/command_runner.py`, `summarize_output`) -/

/-- Python slice `text[-k:]`.  For `k = 0` this is `text[0:]`, i.e. the whole
string; for `k > 0` it is the last `min k (length text)` characters. -/
def pyTailSlice (s : PyStr) (k : Nat) : PyStr :=
  if k = 0 then s else s.drop (s.length - k)

/-- The marker `"\n...\n[omitted {n} chars]\n...\n"` inserted by
`summarize_output`; `n` is a Python `int` and may be rendered with a sign. -/
def omittedMarker (n : Int) : PyStr :=
  str "\n...\n[omitted " ++ intToDecimal n ++ str " chars]\n...\n"

/-- `summarize_output(text, limit=1800)` from `src/command_runner.py`.
The head index `int(limit * 0.6)` and tail width `int(limit * 0.35)` are the
exactly modelled IEEE-754 computations `pyIntMulFloat limit mant06` and
`pyIntMulFloat limit mant035` (1080 and 630 at the default limit 1800). -/
def summarize_output (text : PyStr) (limit : Nat) : PyStr :=
  if text.length ≤ limit then text
  else
    let head := text.take (pyIntMulFloat limit mant06)
    let tail := pyTailSlice text (pyIntMulFloat limit mant035)
    let omitted : Int := (text.length : Int) - head.length - tail.length
    head ++ omittedMarker omitted ++ tail

/-! ## POSIX path functions (CPython `posixpath` algorithms)

`os.path.join`, `os.path.normpath`, `os.path.abspath` and `os.path.relpath`
as the unix family of the code uses them. -/

/-- Split a string on a character, like Python `s.split('/')` (an empty string
yields `[""]`, separators at the ends yield empty components). -/
def splitChar (c : Char) (s : PyStr) : List PyStr :=
  s.foldr
    (fun ch acc =>
      if ch = c then [] :: acc
      else match acc with
        | [] => [[ch]]
        | a :: rest => (ch :: a) :: rest)
    [[]]

/-- Join components with a character, like Python `'/'.join(comps)`. -/
def joinWith (c : Char) : List PyStr → PyStr
  | [] => []
  | [x] => x
  | x :: xs => x ++ c :: joinWith c xs

/-- Two-argument `posixpath.join(a, b)`. -/
def pyJoin (a b : PyStr) : PyStr :=
  if List.isPrefixOf (str "/") b then b
  else if a = [] ∨ a.getLast? = some '/' then a ++ b
  else a ++ '/' :: b

/-- One step of `posixpath.normpath`'s component loop: skip `""` and `"."`,
append ordinary components, and let `".."` pop the previous component unless
the path is relative and empty so far, or the previous component is itself
`".."` (for an absolute path a leading `".."` is dropped). -/
def normStep (isAbs : Bool) (acc : List PyStr) (comp : PyStr) : List PyStr :=
  if comp = [] ∨ comp = ['.'] then acc
  else if comp ≠ str ".." ∨ (¬isAbs ∧ acc = []) ∨ acc.getLast? = some (str "..") then
    acc ++ [comp]
  else if acc ≠ [] then acc.dropLast
  else acc

/-- `posixpath.normpath`: collapse separators and resolve `.` and `..`
textually (a leading `//` — but not `///` — is preserved as two slashes). -/
def normpath (p : PyStr) : PyStr :=
  if p = [] then ['.']
  else
    let slashes : Nat :=
      if List.isPrefixOf (str "//") p ∧ ¬ List.isPrefixOf (str "///") p then 2
      else if List.isPrefixOf (str "/") p then 1 else 0
    let comps := (splitChar '/' p).foldl (normStep (slashes ≠ 0)) []
    let out := List.replicate slashes '/' ++ joinWith '/' comps
    if out = [] then ['.'] else out

/-- `posixpath.abspath(p)` with the process working directory `cwd`:
join onto `cwd` (a no-op when `p` is already absolute), then normalize. -/
def os_path_abspath (cwd p : PyStr) : PyStr := normpath (pyJoin cwd p)

/-- Length of the componentwise common prefix of two component lists. -/
def commonPrefixLen : List PyStr → List PyStr → Nat
  | a :: as, b :: bs => if a = b then commonPrefixLen as bs + 1 else 0
  | _, _ => 0

/-- `posixpath.relpath(path, start)` with the process working directory `cwd`:
compare the non-empty components of the absolutized arguments, climb with
`".."` and descend with the remaining components. -/
def os_path_relpath (cwd path start : PyStr) : PyStr :=
  let sl := (splitChar '/' (os_path_abspath cwd start)).filter (· ≠ [])
  let pl := (splitChar '/' (os_path_abspath cwd path)).filter (· ≠ [])
  let i := commonPrefixLen sl pl
  let rel := List.replicate (sl.length - i) (str "..") ++ pl.drop i
  if rel = [] then ['.'] else joinWith '/' rel

/-! ## Directory Sandbox State (`src/bot.py`, class `CwdStore`) -/

/-- Run-time facts the code queries from the operating system: the process
working directory (`os.getcwd()`), the configured `WORK_DIR`, and the
`os.path.isdir` predicate at call time. -/
structure Env where
  procCwd : PyStr
  work_dir : PyStr
  isdir : PyStr → Bool

/-- The sandbox root: `os.path.abspath(WORK_DIR)`. -/
def Env.base (env : Env) : PyStr := os_path_abspath env.procCwd env.work_dir

/-- The two failures `CwdStore.set` can raise: `ValueError("Path escapes
WORK_DIR sandbox")` (the spec's `OutOfSandbox`/`SandboxViolation`) and
`FileNotFoundError("Directory does not exist")` (the spec's `NotADirectory`). -/
inductive CwdError where
  | outOfSandbox
  | notADirectory
  deriving DecidableEq

/-- The `str(e)` text of each `CwdStore.set` exception. -/
def CwdError.message : CwdError → PyStr
  | .outOfSandbox => str "Path escapes WORK_DIR sandbox"
  | .notADirectory => str "Directory does not exist"

/-- State of a `CwdStore`: the sandbox base (`os.path.abspath(base_dir)`) and
the per-channel directory map `self._cwd`. -/
structure CwdStoreSt where
  base : PyStr
  cwd : List (Int × PyStr)
  deriving DecidableEq

/-- Association-list lookup for the channel-id keyed dictionaries. -/
def lookupKey (k : Int) : List (Int × PyStr) → Option PyStr
  | [] => none
  | kv :: rest => if kv.1 = k then some kv.2 else lookupKey k rest

/-- Dictionary update `d[k] = v`: replace in place if present, else append. -/
def insertKey (k : Int) (v : PyStr) (m : List (Int × PyStr)) : List (Int × PyStr) :=
  if (lookupKey k m).isSome then
    m.map (fun kv => if kv.1 = k then (k, v) else kv)
  else m ++ [(k, v)]

/-- `CwdStore.get`: the stored directory for the channel, defaulting to the
sandbox base.  Never fails. -/
def CwdStore.get (st : CwdStoreSt) (channel_id : Int) : PyStr :=
  (lookupKey channel_id st.cwd).getD st.base

/-- `CwdStore.set`: resolve `new_dir` with `os.path.abspath`, reject it when
the resolved path does not `startswith` the base or is not an existing
directory, otherwise store and return it.  The pair's second component is the
store state after the call (unchanged on failure). -/
def CwdStore.set (env : Env) (st : CwdStoreSt) (channel_id : Int) (new_dir : PyStr) :
    Except CwdError PyStr × CwdStoreSt :=
  let absd := os_path_abspath env.procCwd new_dir
  if ¬ List.isPrefixOf st.base absd then (.error .outOfSandbox, st)
  else if ¬ env.isdir absd then (.error .notADirectory, st)
  else (.ok absd, { st with cwd := insertKey channel_id absd st.cwd })

/-! ## The directory-change regular expressions (`src/bot.py` lines 131–137)

Unix:    `^cd\s+([^;&]+)(?:\s*;|\s*&&\s*|\s*$)(.*)$`
Windows: `^(?:Set-Location|cd)\s+([^;&]+)(?:\s*;|\s*&&\s*|\s*$)(.*)$`
         (with `re.IGNORECASE`)
Bare:    `^cd\s*$` resp. `^(?:Set-Location|cd)\s*$`

The matcher below implements exactly the backtracking search CPython's `re`
performs on these patterns: the token, then `\s+` (greedy, giving back one
character at a time), then the greedy group `([^;&]+)` (likewise giving back),
then the first alternative of `(?:\s*;|\s*&&\s*|\s*$)` that lets the trailing
`(.*)$` succeed.  `.` does not match a newline and `$` matches at the end of
the string or just before a terminal newline. -/

/-- Characters admitted by the class `[^;&]`. -/
def notSep (c : Char) : Bool := c ≠ ';' && c ≠ '&'

/-- `(.*)$` at the current position: `.*` takes the maximal newline-free
prefix, and `$` must then hold, i.e. what remains is empty or a single
terminal newline.  Shrinking `.*` can never rescue a failure, so the greedy
attempt is the only one. -/
def dotStarDollar (r : PyStr) : Option PyStr :=
  let t := r.takeWhile (· ≠ '\n')
  let rest := r.drop t.length
  if rest = [] ∨ rest = ['\n'] then some t else none

/-- Alternative `\s*;` followed by `(.*)$`.  `;` is not whitespace, so the
greedy `\s*` is forced and needs no backtracking. -/
def sepAlt1 (r : PyStr) : Option PyStr :=
  match r.dropWhile pyIsSpace with
  | ';' :: rest => dotStarDollar rest
  | _ => none

/-- Alternative `\s*&&\s*` followed by `(.*)$`.  Giving back characters of the
trailing `\s*` only prepends them to the candidate for `.*` and can never turn
a `(.*)$` failure into a success, so the greedy attempt is the only one. -/
def sepAlt2 (r : PyStr) : Option PyStr :=
  match r.dropWhile pyIsSpace with
  | '&' :: '&' :: rest => dotStarDollar (rest.dropWhile pyIsSpace)
  | _ => none

/-- Alternative `\s*$` followed by `(.*)$`: succeeds (with an empty remainder
group) exactly when everything left is whitespace. -/
def sepAlt3 (r : PyStr) : Option PyStr :=
  if r.dropWhile pyIsSpace = [] then some [] else none

/-- `(?:\s*;|\s*&&\s*|\s*$)(.*)$`: the alternatives in order. -/
def sepRest (r : PyStr) : Option PyStr :=
  (sepAlt1 r).orElse fun _ => (sepAlt2 r).orElse fun _ => sepAlt3 r

/-- Greedy descent for `([^;&]+)`: try the group length `i`, `i-1`, …, `1`
(every candidate is a prefix of the maximal `[^;&]` run at `p`). -/
def tryG1 (p : PyStr) : Nat → Option (PyStr × PyStr)
  | 0 => none
  | i + 1 =>
    match sepRest (p.drop (i + 1)) with
    | some g2 => some (p.take (i + 1), g2)
    | none => tryG1 p i

/-- Greedy descent for `\s+`: try consuming `j`, `j-1`, …, `1` whitespace
characters, each time running the group search on what remains. -/
def tryWs (s : PyStr) : Nat → Option (PyStr × PyStr)
  | 0 => none
  | j + 1 =>
    let p := s.drop (j + 1)
    match tryG1 p (p.takeWhile notSep).length with
    | some g => some g
    | none => tryWs s j

/-- `\s+([^;&]+)(?:\s*;|\s*&&\s*|\s*$)(.*)$` after the directory-change
token: the full backtracking search, returning groups 1 and 2. -/
def cdMatchCore (s : PyStr) : Option (PyStr × PyStr) :=
  tryWs s (s.takeWhile pyIsSpace).length

/-- Case-sensitive literal token at the front; returns the remainder. -/
def tokenPrefix : PyStr → PyStr → Option PyStr
  | [], t => some t
  | _ :: _, [] => none
  | c :: tok, x :: t => if c = x then tokenPrefix tok t else none

/-- ASCII lower-casing, as `re.IGNORECASE` compares the letters of
`Set-Location` and `cd`. -/
def charLower (c : Char) : Char :=
  if 'A' ≤ c ∧ c ≤ 'Z' then Char.ofNat (c.toNat + 32) else c

/-- Case-insensitive literal token at the front; returns the remainder. -/
def tokenPrefixCI : PyStr → PyStr → Option PyStr
  | [], t => some t
  | _ :: _, [] => none
  | c :: tok, x :: t => if charLower c = charLower x then tokenPrefixCI tok t else none

/-- The match of line 131/133 of `src/bot.py`: groups 1 and 2 of the
directory-change regex, or `none` when it does not match.  On windows the
alternation tries `Set-Location` before `cd` (their first letters differ, so
the alternatives are disjoint anyway). -/
def cdMatch (t : PyStr) (is_windows : Bool) : Option (PyStr × PyStr) :=
  if is_windows then
    match (match tokenPrefixCI (str "Set-Location") t with
           | some r => cdMatchCore r
           | none => none) with
    | some g => some g
    | none =>
      match tokenPrefixCI (str "cd") t with
      | some r => cdMatchCore r
      | none => none
  else
    match tokenPrefix (str "cd") t with
    | some r => cdMatchCore r
    | none => none

/-- The bare match of line 137: `^(?:Set-Location|cd)\s*$` on both platform
families — only the `re.IGNORECASE` flag depends on `is_windows`, so the unix
family recognizes `Set-Location` case-sensitively.  `\s*$` holds exactly when
the remainder is all whitespace. -/
def bareCd (t : PyStr) (is_windows : Bool) : Bool :=
  if is_windows then
    (match tokenPrefixCI (str "Set-Location") t with
     | some r => r.dropWhile pyIsSpace = []
     | none => false)
    || (match tokenPrefixCI (str "cd") t with
        | some r => r.dropWhile pyIsSpace = []
        | none => false)
  else
    (match tokenPrefix (str "Set-Location") t with
     | some r => r.dropWhile pyIsSpace = []
     | none => false)
    || (match tokenPrefix (str "cd") t with
        | some r => r.dropWhile pyIsSpace = []
        | none => false)

/-! ## Directory-Change Interceptor (`src/bot.py`,
`_resolve_cd_target` and `_preprocess_command_for_cwd`) -/

/-- `_resolve_cd_target(channel_id, arg)`: `None` or a blank argument resolves
to `os.path.abspath(WORK_DIR)`; otherwise the stripped argument is joined onto
the session's current directory and absolutized. -/
def resolve_cd_target (env : Env) (st : CwdStoreSt) (channel_id : Int)
    (arg : Option PyStr) : PyStr :=
  match arg with
  | none => env.base
  | some a =>
    if pyStrip a = [] then env.base
    else os_path_abspath env.procCwd (pyJoin (CwdStore.get st channel_id) (pyStrip a))

/-- The acknowledgement `f"Changed directory to \x60{os.path.relpath(newd,
os.path.abspath(WORK_DIR))}\x60"`. -/
def changedMsg (env : Env) (newd : PyStr) : PyStr :=
  str "Changed directory to `" ++ os_path_relpath env.procCwd newd env.base ++ str "`"

/-- The failure report `f"Failed to change directory: {e}"`. -/
def failMsg (e : CwdError) : PyStr :=
  str "Failed to change directory: " ++ e.message

/-- `_preprocess_command_for_cwd(channel_id, command, is_windows)`.
Returns the store state after the call together with the source's pair
`(maybe_remainder, changed_msg or None)`. -/
def preprocess_command_for_cwd (env : Env) (st : CwdStoreSt) (channel_id : Int)
    (command : PyStr) (is_windows : Bool) :
    CwdStoreSt × Option PyStr × Option PyStr :=
  let text := pyStrip command
  if text = [] then (st, none, none)
  else
    match cdMatch text is_windows with
    | none =>
      if bareCd text is_windows then
        let target := resolve_cd_target env st channel_id none
        match CwdStore.set env st channel_id target with
        | (.ok newd, st') => (st', none, some (changedMsg env newd))
        | (.error e, st') => (st', none, some (failMsg e))
      else (st, some text, none)
    | some (g1, g2) =>
      let path_arg := pyStripChar '\'' (pyStripChar '"' (pyStrip g1))
      let remainder := pyStrip g2
      let target := resolve_cd_target env st channel_id (some path_arg)
      match CwdStore.set env st channel_id target with
      | (.error e, st') => (st', none, some (failMsg e))
      | (.ok newd, st') =>
        if remainder ≠ [] then (st', some remainder, none)
        else (st', none, some (changedMsg env newd))

/-! ## Session Mode state (`src/bot.py`, class `ModeStore`) -/

/-- State of a `ModeStore`: the normalized default and the per-channel map. -/
structure ModeStoreSt where
  default : PyStr
  modes : List (Int × PyStr)
  deriving DecidableEq

/-- A value of the mode enumeration: membership in `("command", "chat")`. -/
def isMode (m : PyStr) : Bool := m = str "command" || m = str "chat"

/-- `ModeStore.__init__(default_mode, path)`: an unrecognized default falls
back to `"command"`, and the persisted entries are filtered to recognized
modes. -/
def ModeStore.init (default_mode : PyStr) (raw : List (Int × PyStr)) : ModeStoreSt :=
  { default := if isMode default_mode then default_mode else str "command"
    modes := raw.filter fun kv => isMode kv.2 }

/-- `ModeStore.get`: the stored mode for the channel, defaulting to
`self.default`. -/
def ModeStore.get (st : ModeStoreSt) (channel_id : Int) : PyStr :=
  (lookupKey channel_id st.modes).getD st.default

/-- `ModeStore.set`: an unrecognized mode is replaced by `self.default`; the
chosen value is stored and returned. -/
def ModeStore.set (st : ModeStoreSt) (channel_id : Int) (mode : PyStr) :
    PyStr × ModeStoreSt :=
  let m := if isMode mode then mode else st.default
  (m, { st with modes := insertKey channel_id m st.modes })

/-! ## Command Invoker (`src/command_runner.py`, `run_command`) -/

/-- `CommandResult` from `src/command_runner.py`. -/
structure CommandResult where
  command : PyStr
  exit_code : Int
  stdout : PyStr
  stderr : PyStr
  deriving DecidableEq

/-- Outcome of `asyncio.wait_for(proc.communicate(), timeout)`: either the
streams are drained and the process has exited (with its optional return
code), or the wall-clock deadline expired and `asyncio.TimeoutError` was
raised.  Byte strings are modelled as `List Nat`. -/
inductive CommWait where
  | completed (stdout_b stderr_b : List Nat) (returncode : Option Int)
  | timedOut

/-- Actions `run_command` performs on the child process after spawning it. -/
inductive ProcAction where
  | kill
  | wait
  deriving DecidableEq

/-- `run_command(command, work_dir, timeout)` after the subprocess has been
spawned, as a function of the wait outcome; `decode` is `bytes.decode` with
`errors='replace'` (total — invalid sequences are replaced, never raised).
Returns the `CommandResult` together with the process-management actions
taken.  On `TimeoutError` the child is killed, awaited, and a synthetic
result is returned; on completion an absent exit status is normalized to 0
(`proc.returncode or 0`). -/
def run_command (command : PyStr) (outcome : CommWait)
    (decode : List Nat → PyStr) : CommandResult × List ProcAction :=
  match outcome with
  | .timedOut =>
    (⟨command, 124, [], str "Command timed out"⟩, [.kill, .wait])
  | .completed stdout_b stderr_b returncode =>
    (⟨command, returncode.getD 0,
      if stdout_b ≠ [] then decode stdout_b else [],
      if stderr_b ≠ [] then decode stderr_b else []⟩, [])

/-! ## Plan Executor (`src/bot.py`, `on_message`, multi-step branch,
lines 461–481) -/

/-- Python truthiness of an optional string (`None` and `""` are falsy). -/
def truthy (o : Option PyStr) : Bool := o.getD [] ≠ []

/-- One message sent to the channel while executing a plan. -/
inductive Event where
  /-- `f"Planning {n} step(s). Executing sequentially…"` before the loop. -/
  | planning (n : Nat)
  /-- `f"[{idx}/{n}] {changed}"` for a step fully handled by interception. -/
  | ack (idx : Nat) (msg : PyStr)
  /-- `f"[{idx}/{n}] $ {cmd}"` announcing an invocation. -/
  | header (idx : Nat) (cmd : PyStr)
  /-- The step report embedding the exit code and the summarized outputs. -/
  | report (idx : Nat) (exit_code : Int) (msg : PyStr)
  /-- `f"Stopped due to error at step {idx}."`. -/
  | stop (idx : Nat)
  deriving DecidableEq

/-- The report body `f"OS: {os_name}\nexit={result.exit_code}\n"` plus the
optional summarized stdout/stderr sections. -/
def stepReportMsg (os_name : PyStr) (r : CommandResult) : PyStr :=
  str "OS: " ++ os_name ++ str "\nexit=" ++ intToDecimal r.exit_code ++ str "\n"
    ++ (if r.stdout ≠ [] then
          str "stdout:\n" ++ summarize_output r.stdout 1800 ++ str "\n" else [])
    ++ (if r.stderr ≠ [] then
          str "stderr:\n" ++ summarize_output r.stderr 1800 else [])

/-- The `for idx, cmd in enumerate(commands, start=1)` loop: intercept the
step, either report the interception (`changed and not remainder` — then
`continue`), or announce and invoke `remainder or cmd` in the current
directory re-read after interception, report the result, and `break` after a
distinct stop notice when the exit code is nonzero.  `run` abstracts
`run_command` (command, working directory ↦ result). -/
def runPlanSteps (env : Env) (key : Int) (is_windows : Bool) (os_name : PyStr)
    (run : PyStr → PyStr → CommandResult) :
    CwdStoreSt → Nat → List PyStr → List Event
  | _, _, [] => []
  | st, idx, cmd :: rest =>
    let p := preprocess_command_for_cwd env st key cmd is_windows
    let st' := p.1
    let remainder := p.2.1
    let changed := p.2.2
    if truthy changed && ! truthy remainder then
      .ack idx (changed.getD []) ::
        runPlanSteps env key is_windows os_name run st' (idx + 1) rest
    else
      let toRun := if truthy remainder then remainder.getD [] else cmd
      let work_dir := CwdStore.get st' key
      let r := run toRun work_dir
      .header idx cmd :: .report idx r.exit_code (stepReportMsg os_name r) ::
        (if r.exit_code ≠ 0 then [.stop idx]
         else runPlanSteps env key is_windows os_name run st' (idx + 1) rest)

/-- The whole multi-step branch: the planning notice, then the step loop
starting at index 1. -/
def executePlan (env : Env) (key : Int) (is_windows : Bool) (os_name : PyStr)
    (run : PyStr → PyStr → CommandResult) (st : CwdStoreSt)
    (plan : List PyStr) : List Event :=
  .planning plan.length :: runPlanSteps env key is_windows os_name run st 1 plan

/-! ## Plan dispatch (`src/bot.py`, `on_message`, lines 444–461) and the
oracle's list shape (`src/gemini_client.py`, `to_commands_from_nl`) -/

/-- The pure tail of `to_commands_from_nl`: when a JSON array of strings was
extracted from the model response it is truncated to `max_steps` and returned
(an empty array passes the `isinstance`/`all` check and is returned as is);
otherwise the single fallback command is wrapped in a list. -/
def to_commands_result (parsed : Option (List PyStr)) (max_steps : Nat)
    (fallback : PyStr) : List PyStr :=
  match parsed with
  | some arr => arr.take max_steps
  | none => [fallback]

/-- How the chat-mode branch consumes the returned plan. -/
inductive PlanAction where
  | single (cmd : PyStr)
  | multi (cmds : List PyStr)
  deriving DecidableEq

/-- `if len(commands) <= 1: command = commands[0] … else: …` — the subscript
`commands[0]` raises `IndexError` on an empty list, modelled as `none`. -/
def dispatchPlan (commands : List PyStr) : Option PlanAction :=
  if commands.length ≤ 1 then (commands.get? 0).map PlanAction.single
  else some (.multi commands)

/-! ## Helper lemmas -/

theorem isPrefixOf_self (l : List Char) : List.isPrefixOf l l = true := by
  induction l with
  | nil => rfl
  | cons a as ih => simp [List.isPrefixOf, ih]

theorem lookupKey_append_of_none (k : Int) (m l : List (Int × PyStr))
    (h : lookupKey k m = none) : lookupKey k (m ++ l) = lookupKey k l := by
  induction m with
  | nil => rfl
  | cons kv rest ih =>
    rw [List.cons_append]
    by_cases hk : kv.1 = k
    · simp [lookupKey, hk] at h
    · simp only [lookupKey, hk, if_false] at h ⊢
      exact ih h

theorem lookupKey_map_replace (k : Int) (v : PyStr) (m : List (Int × PyStr))
    (h : (lookupKey k m).isSome) :
    lookupKey k (m.map fun kv => if kv.1 = k then (k, v) else kv) = some v := by
  induction m with
  | nil => simp [lookupKey] at h
  | cons kv rest ih =>
    by_cases hk : kv.1 = k
    · simp [lookupKey, hk]
    · simp only [lookupKey, hk, if_false] at h
      simp only [List.map_cons, hk, if_false, lookupKey]
      exact ih h

/-- The dictionary update stores the value: `d[k] = v` makes `d.get(k) = v`. -/
theorem lookupKey_insertKey_self (k : Int) (v : PyStr) (m : List (Int × PyStr)) :
    lookupKey k (insertKey k v m) = some v := by
  unfold insertKey
  split
  · exact lookupKey_map_replace k v m (by assumption)
  · rename_i h
    rw [lookupKey_append_of_none k m _ (Option.not_isSome_iff_eq_none.mp h)]
    simp [lookupKey]

/-- Every binding of the updated dictionary is an old binding or the new one. -/
theorem mem_insertKey (k : Int) (v : PyStr) (m : List (Int × PyStr)) (kv : Int × PyStr)
    (h : kv ∈ insertKey k v m) : kv ∈ m ∨ kv = (k, v) := by
  unfold insertKey at h
  split at h
  · obtain ⟨kv₀, hmem, heq⟩ := List.mem_map.mp h
    by_cases hk : kv₀.1 = k
    · right; rw [← heq]; simp [hk]
    · left; rw [← heq]; simpa [hk] using hmem
  · rcases List.mem_append.mp h with h' | h'
    · exact Or.inl h'
    · right; simpa using h'

theorem natToDecimalRevAux_length_le :
    ∀ (fuel n k : Nat), n < 10 ^ k → (natToDecimalRevAux fuel n).length ≤ k := by
  intro fuel
  induction fuel with
  | zero =>
    intro n k _
    cases n <;> simp [natToDecimalRevAux]
  | succ fuel ih =>
    intro n k hn
    cases n with
    | zero => simp [natToDecimalRevAux]
    | succ m =>
      have hk : k ≠ 0 := by
        intro h; rw [h] at hn; omega
      obtain ⟨k', rfl⟩ := Nat.exists_eq_succ_of_ne_zero hk
      have hdiv : (m + 1) / 10 < 10 ^ k' := by
        rw [Nat.div_lt_iff_lt_mul (by norm_num)]
        calc m + 1 < 10 ^ (k' + 1) := hn
          _ = 10 ^ k' * 10 := by ring
      simpa [natToDecimalRevAux] using ih ((m + 1) / 10) k' hdiv

theorem natToDecimal_length_le (n k : Nat) (hk : 1 ≤ k) (hn : n < 10 ^ k) :
    (natToDecimal n).length ≤ k := by
  unfold natToDecimal
  split
  · simpa
  · simpa [natToDecimalRev] using natToDecimalRevAux_length_le n n k hn

theorem cdMatch_nil (is_windows : Bool) : cdMatch [] is_windows = none := by
  cases is_windows <;> rfl

theorem bareCd_nil (is_windows : Bool) : bareCd [] is_windows = false := by
  cases is_windows <;> rfl

theorem bitLenAux_lt : ∀ (fuel n : Nat), n ≤ fuel → n < 2 ^ bitLenAux fuel n := by
  intro fuel
  induction fuel with
  | zero =>
    intro n hn
    interval_cases n
    simp [bitLenAux]
  | succ fuel ih =>
    intro n hn
    cases n with
    | zero => simp [bitLenAux]
    | succ m =>
      have hP := ih ((m + 1) / 2) (by omega)
      simp only [bitLenAux, pow_succ]
      omega

theorem bitLenAux_pos : ∀ (fuel n : Nat), 0 < n → n ≤ fuel → 0 < bitLenAux fuel n := by
  intro fuel n hpos hn
  by_contra hz
  have hzero : bitLenAux fuel n = 0 := by omega
  have hlt := bitLenAux_lt fuel n hn
  rw [hzero, pow_zero] at hlt
  omega

theorem bitLenAux_lower :
    ∀ (fuel n : Nat), 0 < n → n ≤ fuel → 2 ^ (bitLenAux fuel n - 1) ≤ n := by
  intro fuel
  induction fuel with
  | zero => intro n hpos hn; omega
  | succ fuel ih =>
    intro n hpos hn
    cases n with
    | zero => omega
    | succ m =>
      by_cases hm : (m + 1) / 2 = 0
      · have hm1 : m = 0 := by omega
        subst hm1
        simp [bitLenAux, hm]
      · have hlow := ih ((m + 1) / 2) (by omega) (by omega)
        have hpos' := bitLenAux_pos fuel ((m + 1) / 2) (by omega) (by omega)
        simp only [bitLenAux, Nat.add_sub_cancel]
        have hexp : bitLenAux fuel ((m + 1) / 2)
            = (bitLenAux fuel ((m + 1) / 2) - 1) + 1 := by omega
        rw [hexp, pow_succ]
        omega

theorem bitLen_lt (n : Nat) : n < 2 ^ bitLen n := bitLenAux_lt n n (Nat.le_refl n)

theorem bitLen_lower (n : Nat) (h : 0 < n) : 2 ^ (bitLen n - 1) ≤ n :=
  bitLenAux_lower n n h (Nat.le_refl n)

theorem rnMantissa_le (N s : Nat) : rnMantissa N s ≤ N / 2 ^ s + 1 := by
  simp only [rnMantissa]
  split
  · omega
  · split
    · omega
    · split <;> omega

/-- Rounding an integer to a 53-bit significand grows it by at most a factor
`1 + 2 ^ (-52)`. -/
theorem roundFloat53_le (N : Nat) :
    2 ^ 52 * roundFloat53 N ≤ (2 ^ 52 + 1) * N := by
  unfold roundFloat53
  split
  · omega
  · rename_i hb
    have hN : 0 < N := by
      rcases Nat.eq_zero_or_pos N with h0 | h0
      · subst h0; simp [bitLen, bitLenAux] at hb
      · exact h0
    have hlow := bitLen_lower N hN
    have hexp : bitLen N - 1 = (bitLen N - 53) + 52 := by omega
    rw [hexp, pow_add] at hlow
    have hm := rnMantissa_le N (bitLen N - 53)
    have hdm : N / 2 ^ (bitLen N - 53) * 2 ^ (bitLen N - 53) ≤ N :=
      Nat.div_mul_le_self _ _
    have hmul : rnMantissa N (bitLen N - 53) * 2 ^ (bitLen N - 53)
        ≤ N + 2 ^ (bitLen N - 53) := by
      calc rnMantissa N (bitLen N - 53) * 2 ^ (bitLen N - 53)
          ≤ (N / 2 ^ (bitLen N - 53) + 1) * 2 ^ (bitLen N - 53) :=
            Nat.mul_le_mul_right _ hm
        _ = N / 2 ^ (bitLen N - 53) * 2 ^ (bitLen N - 53) + 2 ^ (bitLen N - 53) := by
            ring
        _ ≤ N + 2 ^ (bitLen N - 53) := by omega
    omega

/-- Rounding `N / 2 ^ 53` to a double and truncating yields at most
`N * (1 + 2 ^ (-52)) / 2 ^ 53`. -/
theorem rnTrunc53_le (N : Nat) :
    2 ^ 105 * rnTrunc53 N ≤ (2 ^ 52 + 1) * N := by
  unfold rnTrunc53
  split
  · have hd : N / 2 ^ 53 * 2 ^ 53 ≤ N := Nat.div_mul_le_self _ _
    have he : (2 : Nat) ^ 105 = 2 ^ 52 * 2 ^ 53 := by norm_num
    omega
  · rename_i hb
    have hN : 0 < N := by
      rcases Nat.eq_zero_or_pos N with h0 | h0
      · subst h0; simp [bitLen, bitLenAux] at hb
      · exact h0
    have hlow := bitLen_lower N hN
    have hexp : bitLen N - 1 = (bitLen N - 53) + 52 := by omega
    rw [hexp, pow_add] at hlow
    have hm := rnMantissa_le N (bitLen N - 53)
    have hdm : N / 2 ^ (bitLen N - 53) * 2 ^ (bitLen N - 53) ≤ N :=
      Nat.div_mul_le_self _ _
    have hmul : rnMantissa N (bitLen N - 53) * 2 ^ (bitLen N - 53)
        ≤ N + 2 ^ (bitLen N - 53) := by
      calc rnMantissa N (bitLen N - 53) * 2 ^ (bitLen N - 53)
          ≤ (N / 2 ^ (bitLen N - 53) + 1) * 2 ^ (bitLen N - 53) :=
            Nat.mul_le_mul_right _ hm
        _ = N / 2 ^ (bitLen N - 53) * 2 ^ (bitLen N - 53) + 2 ^ (bitLen N - 53) := by
            ring
        _ ≤ N + 2 ^ (bitLen N - 53) := by omega
    have hd : rnMantissa N (bitLen N - 53) * 2 ^ (bitLen N - 53) / 2 ^ 53 * 2 ^ 53
        ≤ rnMantissa N (bitLen N - 53) * 2 ^ (bitLen N - 53) :=
      Nat.div_mul_le_self _ _
    have he : (2 : Nat) ^ 105 = 2 ^ 52 * 2 ^ 53 := by norm_num
    omega

/-- Combined relative-error bound for `int(n * c)` with `c = mant / 2 ^ 53`:
two roundings, each within a factor `1 + 2 ^ (-52)`. -/
theorem pyIntMulFloat_bound (n mant : Nat) :
    2 ^ 157 * pyIntMulFloat n mant ≤ (2 ^ 52 + 1) * ((2 ^ 52 + 1) * mant * n) := by
  have h7 := rnTrunc53_le (roundFloat53 n * mant)
  have h6 := roundFloat53_le n
  calc 2 ^ 157 * pyIntMulFloat n mant
      = 2 ^ 52 * (2 ^ 105 * rnTrunc53 (roundFloat53 n * mant)) := by
        unfold pyIntMulFloat; ring
    _ ≤ 2 ^ 52 * ((2 ^ 52 + 1) * (roundFloat53 n * mant)) :=
        Nat.mul_le_mul_left _ h7
    _ = (2 ^ 52 + 1) * mant * (2 ^ 52 * roundFloat53 n) := by ring
    _ ≤ (2 ^ 52 + 1) * mant * ((2 ^ 52 + 1) * n) :=
        Nat.mul_le_mul_left _ h6
    _ = (2 ^ 52 + 1) * ((2 ^ 52 + 1) * mant * n) := by ring

/-- The head and tail widths together never exceed the limit:
`(1 + 2^(-52))^2 * (0.6 + 0.35) < 1`. -/
theorem head_tail_width_le (n : Nat) :
    pyIntMulFloat n mant06 + pyIntMulFloat n mant035 ≤ n := by
  have h6 := pyIntMulFloat_bound n mant06
  have h35 := pyIntMulFloat_bound n mant035
  norm_num [mant06, mant035] at h6 h35 ⊢
  omega

/-- Characterization of `summarize_output` above the limit, for limits whose
tail width is at least one character (so the `text[-k:]` slice really is the
last `k` characters). -/
theorem summarize_output_eq_split (text : PyStr) (limit : Nat)
    (h : limit < text.length) (ht : 1 ≤ pyIntMulFloat limit mant035) :
    summarize_output text limit =
      text.take (pyIntMulFloat limit mant06)
        ++ omittedMarker ((text.length : Int)
              - ((pyIntMulFloat limit mant06 : Nat) : Int)
              - ((pyIntMulFloat limit mant035 : Nat) : Int))
        ++ text.drop (text.length - pyIntMulFloat limit mant035) := by
  have hht := head_tail_width_le limit
  have hhead : pyIntMulFloat limit mant06 ≤ text.length := by omega
  have e1 : text.length - (text.length - pyIntMulFloat limit mant035)
      = pyIntMulFloat limit mant035 := by omega
  simp only [summarize_output, pyTailSlice,
    if_neg (show ¬ text.length ≤ limit by omega),
    if_neg (show ¬ pyIntMulFloat limit mant035 = 0 by omega),
    List.length_take, List.length_drop, min_eq_left hhead, e1]

/-- Below `10 ^ 64` characters, a summary at the default limit 1800 fits the
limit: 1080 head + 630 tail + 26 marker characters + at most 64 digits. -/
theorem summarize_output_length_le (text : PyStr) (h : 1800 < text.length)
    (hN : text.length ≤ 10 ^ 64) :
    (summarize_output text 1800).length ≤ 1800 := by
  have e6 : pyIntMulFloat 1800 mant06 = 1080 := by decide
  have e35 : pyIntMulFloat 1800 mant035 = 630 := by decide
  rw [summarize_output_eq_split text 1800 h (by rw [e35]; omega)]
  rw [e6, e35]
  have hhead : (1080 : Nat) ≤ text.length := by omega
  have hx : ¬ ((text.length : Int) - ((1080 : Nat) : Int) - ((630 : Nat) : Int) < 0) := by
    push_cast; omega
  have htoNat : ((text.length : Int) - ((1080 : Nat) : Int) - ((630 : Nat) : Int)).toNat
      = text.length - 1710 := by omega
  have hlt : text.length - 1710 < 10 ^ 64 :=
    lt_of_lt_of_le (Nat.sub_lt (by omega) (by norm_num)) hN
  have hd : (natToDecimal (text.length - 1710)).length ≤ 64 :=
    natToDecimal_length_le _ 64 (by norm_num) hlt
  simp only [omittedMarker, intToDecimal, if_neg hx, htoNat,
    List.length_append, List.length_take, List.length_drop, min_eq_left hhead]
  have l1 : (str "\n...\n[omitted ").length = 14 := by decide
  have l2 : (str " chars]\n...\n").length = 12 := by decide
  omega

/-! ## Claim C1 — `CwdStore.set` containment and failure atomicity -/

/-- A concrete environment for witnesses: process directory and sandbox root
`/sandbox`, with `/sandbox` and `/sandbox/sub` the only existing
directories. -/
def envC : Env :=
  { procCwd := str "/sandbox", work_dir := str "/sandbox",
    isdir := fun p => p == str "/sandbox" || p == str "/sandbox/sub" }

/-- A concrete store state at the sandbox root with no stored session. -/
def stC : CwdStoreSt := { base := str "/sandbox", cwd := [] }

/-- **C1.** `set` resolves the candidate with `os.path.abspath` and fails with
`OutOfSandbox` exactly when the resolved path does not satisfy the string-prefix
containment in `SandboxRoot` (the claim's "equal to or a descendant of",
which the spec defines as `startswith` on the normalized absolute paths);
it fails with `NotADirectory` exactly when containment holds but the resolved
path is not an existing directory; and on either failure the stored state is
unchanged, so every subsequent `get` is unchanged. -/
theorem cwd_set_containment (env : Env) (st : CwdStoreSt) (key : Int) (p : PyStr) :
    ((CwdStore.set env st key p).1 = .error .outOfSandbox ↔
        List.isPrefixOf st.base (os_path_abspath env.procCwd p) = false) ∧
    ((CwdStore.set env st key p).1 = .error .notADirectory ↔
        (List.isPrefixOf st.base (os_path_abspath env.procCwd p) = true ∧
         env.isdir (os_path_abspath env.procCwd p) = false)) ∧
    (∀ e, (CwdStore.set env st key p).1 = .error e →
        (CwdStore.set env st key p).2 = st ∧
        ∀ k', CwdStore.get (CwdStore.set env st key p).2 k' = CwdStore.get st k') := by
  unfold CwdStore.set
  by_cases h1 : List.isPrefixOf st.base (os_path_abspath env.procCwd p)
  · by_cases h2 : env.isdir (os_path_abspath env.procCwd p)
    · simp [h1, h2]
    · simp [h1, h2]
  · simp [h1]

/-- Witness for C1: from `/sandbox`, setting `/etc` fails with `OutOfSandbox`
and leaves the state (hence `get`) unchanged. -/
theorem cwd_set_containment_witness :
    (CwdStore.set envC stC 0 (str "/etc")).1 = Except.error CwdError.outOfSandbox ∧
    (CwdStore.set envC stC 0 (str "/etc")).2 = stC ∧
    CwdStore.get (CwdStore.set envC stC 0 (str "/etc")).2 0 = CwdStore.get stC 0 := by
  have h := cwd_set_containment envC stC 0 (str "/etc")
  have he : (CwdStore.set envC stC 0 (str "/etc")).1 = .error .outOfSandbox :=
    h.1.mpr (by decide)
  exact ⟨he, (h.2.2 _ he).1, (h.2.2 _ he).2 0⟩

/-! ## Claim C3 — timeout produces a synthetic result -/

/-- **C3.** When the combined wait expires, `run_command` kills the child,
awaits its actual termination, and returns — rather than raising — the
synthetic result with exit code 124, empty stdout and the fixed timeout
message in stderr. -/
theorem run_command_timeout_synthetic (command : PyStr) (decode : List Nat → PyStr) :
    run_command command .timedOut decode =
      (⟨command, 124, [], str "Command timed out"⟩,
       [ProcAction.kill, ProcAction.wait]) := rfl

/-! ## Claim C4 — summarize idempotence -/

/-- Counterexample to C4 as stated: at limit 10 the summary of an 11-character
text is 36 characters long, so a second application truncates it again. -/
theorem summarize_idempotent_counterexample :
    summarize_output (summarize_output (str "abcdefghijk") 10) 10 ≠
      summarize_output (str "abcdefghijk") 10 := by decide

/-- **C4 (amended).** For every limit, `summarize` is the identity on texts of
length at most the limit; idempotence holds at the default limit 1800 for
every text of length at most `10 ^ 64` (the marker's digit count then keeps
the summary itself within the limit), but not for every limit. -/
theorem summarize_idempotent_amended (text : PyStr) (limit : Nat) :
    (text.length ≤ limit → summarize_output text limit = text) ∧
    (text.length ≤ 10 ^ 64 →
      summarize_output (summarize_output text 1800) 1800 =
        summarize_output text 1800) := by
  constructor
  · intro h
    simp [summarize_output, h]
  · intro hN
    by_cases h : text.length ≤ 1800
    · simp [summarize_output, h]
    · have hle := summarize_output_length_le text (by omega) hN
      generalize hS : summarize_output text 1800 = S at hle ⊢
      simp [summarize_output, hle]

/-- Witness for C4: identity at a short text, idempotence at the default
limit. -/
theorem summarize_idempotent_witness :
    ((str "ok").length ≤ 5 ∧ summarize_output (str "ok") 5 = str "ok") ∧
    ((str "abcdefghijk").length ≤ 10 ^ 64 ∧
      summarize_output (summarize_output (str "abcdefghijk") 1800) 1800 =
        summarize_output (str "abcdefghijk") 1800) :=
  ⟨⟨by decide, (summarize_idempotent_amended (str "ok") 5).1 (by decide)⟩,
   ⟨by decide, (summarize_idempotent_amended (str "abcdefghijk") 1800).2 (by decide)⟩⟩

/-! ## Claim C5 — summarize head/marker/tail split -/

/-- Counterexample to C5 as stated: at limit 2 the tail width
`int(limit * 0.35)` is 0, so the Python slice `text[-0:]` is the whole text,
not the last 0 characters, and the omitted count is negative: the summary of
`"abc"` is `"a\n...\n[omitted -1 chars]\n...\nabc"`, not the claimed
head-marker-empty-tail form with a non-negative count 2.  Independently, the
claimed exact floors are wrong of the program at other limits: the code's
tail width at limit 180 is `int(180 * 0.35) = 62` under IEEE-754 double
arithmetic, not `floor(0.35 * 180) = 63`. -/
theorem summarize_split_counterexample :
    summarize_output (str "abc") 2 = str "a" ++ omittedMarker (-1) ++ str "abc" ∧
    summarize_output (str "abc") 2 ≠ str "a" ++ omittedMarker 2 ∧
    pyIntMulFloat 180 mant035 = 62 ∧ 180 * 35 / 100 = 63 := by decide

/-- **C5 (amended).** For every limit whose tail width `int(limit * 0.35)`
(evaluated, as the program does, in IEEE-754 double arithmetic) is at least 1
and every text longer than the limit, `summarize` returns the first
`int(limit * 0.6)` characters, then the marker, then the last
`int(limit * 0.35)` characters, with a non-negative omitted count equal to the
text length minus the head and tail lengths.  (For limits 0–2 the tail width
is 0 and the `text[-0:]` slice degenerates to the whole text; the widths are
the float computations, which differ from the exact rational floors at some
limits, e.g. 180.) -/
theorem summarize_split_amended (text : PyStr) (limit : Nat)
    (h : limit < text.length) (ht : 1 ≤ pyIntMulFloat limit mant035) :
    summarize_output text limit =
      text.take (pyIntMulFloat limit mant06)
        ++ omittedMarker ((text.length : Int)
              - ((pyIntMulFloat limit mant06 : Nat) : Int)
              - ((pyIntMulFloat limit mant035 : Nat) : Int))
        ++ text.drop (text.length - pyIntMulFloat limit mant035) ∧
    0 ≤ (text.length : Int) - ((pyIntMulFloat limit mant06 : Nat) : Int)
          - ((pyIntMulFloat limit mant035 : Nat) : Int) := by
  refine ⟨summarize_output_eq_split text limit h ht, ?_⟩
  have hht := head_tail_width_le limit
  omega

/-- Witness for C5: the 11-character text at limit 10 splits as the first 6
characters, the marker with omitted count 2, and the last 3 characters. -/
theorem summarize_split_witness :
    (10 < (str "abcdefghijk").length ∧ 1 ≤ pyIntMulFloat 10 mant035) ∧
    summarize_output (str "abcdefghijk") 10 =
      str "abcdef\n...\n[omitted 2 chars]\n...\nijk" :=
  ⟨⟨by decide, by decide⟩,
   ((summarize_split_amended (str "abcdefghijk") 10 (by decide) (by decide)).1).trans
     (by decide)⟩

/-! ## Claim C9 — empty plans from the oracle crash the dispatch -/

/-- **C9 (code bug).** `to_commands_from_nl` can return the empty list (a
model response whose extracted JSON array is `[]` passes the
list-of-strings check and is returned truncated), and the dispatch
`if len(commands) <= 1: command = commands[0]` then subscripts the empty
list — an `IndexError` (`none` in the model) — so the path is not total over
plans of length 0. -/
theorem plan_dispatch_empty_bug :
    (∀ (max_steps : Nat) (fallback : PyStr),
        to_commands_result (some []) max_steps fallback = []) ∧
    dispatchPlan [] = none ∧
    (∀ cmd : PyStr, dispatchPlan [cmd] = some (.single cmd)) :=
  ⟨fun ms _ => by simp [to_commands_result], rfl, fun _ => rfl⟩

/-! ## Claim C10 — mode store default and closure -/

/-- The mode-store invariant: the default and every stored value are members
of the mode enumeration. -/
def ModeStoreSt.valid (st : ModeStoreSt) : Prop :=
  isMode st.default = true ∧ ∀ kv ∈ st.modes, isMode kv.2 = true

/-- Counterexample to C10 as stated: with the configured default `"banana"`,
`get` on an unset key returns `"command"`, not the configured default. -/
theorem mode_store_default_counterexample :
    ModeStore.get (ModeStore.init (str "banana") []) 0 = str "command" ∧
    str "command" ≠ str "banana" := by decide

/-- **C10 (amended).** The configured default is normalized at construction
(`"command"` unless it is a recognized mode); `get` returns the store's
normalized default when no mode was ever set for the key; `set` with an
unrecognized value does not fail and stores and returns the normalized
default instead; and every value ever stored is in the mode enumeration. -/
theorem mode_store_default_amended (d : PyStr) (raw : List (Int × PyStr))
    (st : ModeStoreSt) (k : Int) (m : PyStr) :
    ((ModeStore.init d raw).default = if isMode d then d else str "command") ∧
    (lookupKey k (ModeStore.init d raw).modes = none →
      ModeStore.get (ModeStore.init d raw) k = (ModeStore.init d raw).default) ∧
    (isMode m = false →
      (ModeStore.set st k m).1 = st.default ∧
      lookupKey k ((ModeStore.set st k m).2).modes = some st.default) ∧
    (ModeStore.init d raw).valid ∧
    (st.valid → ((ModeStore.set st k m).2).valid) := by
  refine ⟨rfl, ?_, ?_, ⟨?_, ?_⟩, ?_⟩
  · intro hnone
    unfold ModeStore.get
    rw [hnone]
    rfl
  · intro hm
    constructor
    · show (if isMode m = true then m else st.default) = st.default
      simp [hm]
    · show lookupKey k
          (insertKey k (if isMode m = true then m else st.default) st.modes)
          = some st.default
      simp only [hm, Bool.false_eq_true, if_false]
      exact lookupKey_insertKey_self _ _ _
  · show isMode (if isMode d = true then d else str "command") = true
    by_cases hd : isMode d = true
    · rw [if_pos hd]; exact hd
    · rw [if_neg hd]; decide
  · intro kv hkv
    exact (List.mem_filter.mp hkv).2
  · rintro ⟨hdef, hmem⟩
    refine ⟨hdef, ?_⟩
    intro kv hkv
    rcases mem_insertKey _ _ _ _ hkv with h' | h'
    · exact hmem kv h'
    · rw [h']
      show isMode (if isMode m = true then m else st.default) = true
      by_cases hm : isMode m = true
      · rw [if_pos hm]; exact hm
      · rw [if_neg hm]; exact hdef

/-- Witness for C10: with default `"chat"`, setting the unrecognized mode
`"banana"` stores and returns `"chat"`, and the store stays inside the
mode enumeration. -/
theorem mode_store_default_witness :
    isMode (str "banana") = false ∧
    (ModeStore.set (ModeStore.init (str "chat") []) 0 (str "banana")).1 = str "chat" ∧
    ((ModeStore.set (ModeStore.init (str "chat") []) 0 (str "banana")).2).valid := by
  have h := mode_store_default_amended (str "chat") [] (ModeStore.init (str "chat") [])
    0 (str "banana")
  refine ⟨by decide, ?_, h.2.2.2.2 h.2.2.2.1⟩
  exact ((h.2.2.1 (by decide)).1).trans (by decide)

/-! ## Claim C8 — non-directory-change instructions pass through -/

/-- Counterexample to C8 as stated: the interceptor returns the *stripped*
instruction, not the original raw instruction — `" ls "` passes through as
`"ls"`. -/
theorem intercept_passthrough_counterexample :
    preprocess_command_for_cwd envC stC 0 (str " ls ") false
      = (stC, some (str "ls"), none) ∧
    str "ls" ≠ str " ls " := by decide

/-- **C8 (amended).** Every instruction that is non-empty after stripping and
matches neither the directory-change regex nor the bare form passes through
with no acknowledgement and an unmodified session directory, but the residual
is the whitespace-stripped instruction, not the original raw text. -/
theorem intercept_passthrough_amended (env : Env) (st : CwdStoreSt) (key : Int)
    (command : PyStr) (is_windows : Bool)
    (h1 : pyStrip command ≠ [])
    (h2 : cdMatch (pyStrip command) is_windows = none)
    (h3 : bareCd (pyStrip command) is_windows = false) :
    preprocess_command_for_cwd env st key command is_windows
      = (st, some (pyStrip command), none) := by
  unfold preprocess_command_for_cwd
  rw [if_neg h1, h2, h3]
  simp

/-- Witness for C8: `"ls"` is not a directory change and passes through
unchanged. -/
theorem intercept_passthrough_witness :
    (pyStrip (str "ls") ≠ [] ∧ cdMatch (pyStrip (str "ls")) false = none ∧
      bareCd (pyStrip (str "ls")) false = false) ∧
    preprocess_command_for_cwd envC stC 0 (str "ls") false
      = (stC, some (str "ls"), none) :=
  ⟨⟨by decide, by decide, by decide⟩,
   (intercept_passthrough_amended envC stC 0 (str "ls") false
       (by decide) (by decide) (by decide)).trans (by decide)⟩

/-! ## Claim C7 — bare `cd` resets to the sandbox root -/

/-- Counterexample to C7 as stated: when the sandbox root itself does not
exist as a directory at call time (every `isdir` false), bare `cd` fails with
the error message and the session directory stays where it was — it is *not*
always reset. -/
theorem intercept_bare_cd_counterexample :
    (preprocess_command_for_cwd
        { procCwd := str "/sandbox", work_dir := str "/sandbox",
          isdir := fun _ => false }
        { base := str "/sandbox", cwd := [(0, str "/sandbox/sub")] }
        0 (str "cd") false).2.1 = none ∧
    (preprocess_command_for_cwd
        { procCwd := str "/sandbox", work_dir := str "/sandbox",
          isdir := fun _ => false }
        { base := str "/sandbox", cwd := [(0, str "/sandbox/sub")] }
        0 (str "cd") false).2.2 = some (failMsg .notADirectory) ∧
    CwdStore.get (preprocess_command_for_cwd
        { procCwd := str "/sandbox", work_dir := str "/sandbox",
          isdir := fun _ => false }
        { base := str "/sandbox", cwd := [(0, str "/sandbox/sub")] }
        0 (str "cd") false).1 0 ≠ str "/sandbox" := by decide

/-- **C7 (amended).** Provided the sandbox root exists as a directory at call
time (and the store's base is the normalized `os.path.abspath(WORK_DIR)`),
intercepting bare `cd` on the unix family resets the session directory to
SandboxRoot and returns an acknowledgement with no residual. -/
theorem intercept_bare_cd_amended (env : Env) (st : CwdStoreSt) (key : Int)
    (hbase : st.base = env.base)
    (hnorm : os_path_abspath env.procCwd env.base = env.base)
    (hdir : env.isdir env.base = true) :
    preprocess_command_for_cwd env st key (str "cd") false
      = ({ st with cwd := insertKey key env.base st.cwd },
         none, some (changedMsg env env.base)) ∧
    CwdStore.get (preprocess_command_for_cwd env st key (str "cd") false).1 key
      = env.base := by
  have hmain : preprocess_command_for_cwd env st key (str "cd") false
      = ({ st with cwd := insertKey key env.base st.cwd },
         none, some (changedMsg env env.base)) := by
    unfold preprocess_command_for_cwd
    rw [if_neg (by decide : ¬ pyStrip (str "cd") = [])]
    rw [show cdMatch (pyStrip (str "cd")) false = none from rfl]
    rw [show bareCd (pyStrip (str "cd")) false = true from rfl]
    show (match CwdStore.set env st key (resolve_cd_target env st key none) with
          | (.ok newd, st') => (st', none, some (changedMsg env newd))
          | (.error e, st') => (st', none, some (failMsg e)))
        = _
    rw [show resolve_cd_target env st key none = env.base from rfl]
    unfold CwdStore.set
    rw [hnorm, hbase]
    simp [isPrefixOf_self, hdir]
  refine ⟨hmain, ?_⟩
  rw [hmain]
  show CwdStore.get { st with cwd := insertKey key env.base st.cwd } key = env.base
  unfold CwdStore.get
  rw [lookupKey_insertKey_self]
  rfl

/-- Witness for C7: with `/sandbox` existing, bare `cd` from
`/sandbox/sub` resets the session to `/sandbox` with an acknowledgement. -/
theorem intercept_bare_cd_witness :
    ({ base := str "/sandbox", cwd := [(0, str "/sandbox/sub")] } : CwdStoreSt).base
        = envC.base ∧
    os_path_abspath envC.procCwd envC.base = envC.base ∧
    envC.isdir envC.base = true ∧
    preprocess_command_for_cwd envC
        { base := str "/sandbox", cwd := [(0, str "/sandbox/sub")] } 0 (str "cd") false
      = ({ base := str "/sandbox", cwd := [(0, str "/sandbox")] },
         none, some (str "Changed directory to `.`")) := by
  refine ⟨by decide, by decide, by decide, ?_⟩
  exact ((intercept_bare_cd_amended envC
      { base := str "/sandbox", cwd := [(0, str "/sandbox/sub")] } 0
      (by decide) (by decide) (by decide)).1).trans (by decide)

/-! ## Claim C6 — directory change with argument (shapes b and c) -/

/-- **C6.** Whenever the directory-change regex matches (cd token plus path
argument, optionally followed by a compound separator and remainder), the
interceptor resolves the quote-stripped argument relative to the session's
current directory, applies it via `set`, and: on failure returns no residual
command and the error message (the remainder is never returned, even in shape
c); on success with non-empty stripped remainder returns the remainder as
residual with no acknowledgement; on success without remainder returns the
acknowledgement only. -/
theorem intercept_cd_with_arg (env : Env) (st : CwdStoreSt) (key : Int)
    (command : PyStr) (is_windows : Bool) (g1 g2 : PyStr)
    (h : cdMatch (pyStrip command) is_windows = some (g1, g2)) :
    (pyStrip (pyStripChar '\'' (pyStripChar '"' (pyStrip g1))) ≠ [] →
      resolve_cd_target env st key
          (some (pyStripChar '\'' (pyStripChar '"' (pyStrip g1))))
        = os_path_abspath env.procCwd
            (pyJoin (CwdStore.get st key)
              (pyStrip (pyStripChar '\'' (pyStripChar '"' (pyStrip g1)))))) ∧
    preprocess_command_for_cwd env st key command is_windows
      = (match CwdStore.set env st key
            (resolve_cd_target env st key
              (some (pyStripChar '\'' (pyStripChar '"' (pyStrip g1))))) with
         | (.error e, st') => (st', none, some (failMsg e))
         | (.ok newd, st') =>
           if pyStrip g2 ≠ [] then (st', some (pyStrip g2), none)
           else (st', none, some (changedMsg env newd))) := by
  constructor
  · intro hne
    simp only [resolve_cd_target]
    rw [if_neg hne]
  · have hne : pyStrip command ≠ [] := by
      intro hh
      rw [hh, cdMatch_nil] at h
      cases h
    unfold preprocess_command_for_cwd
    rw [if_neg hne, h]

/-- Witness for C6 (the spec's concrete example): `"cd sub && ls"` from
SandboxRoot with an existing `sub` yields residual `"ls"` and moves the
session to `SandboxRoot/sub`. -/
theorem intercept_cd_with_arg_witness :
    cdMatch (pyStrip (str "cd sub && ls")) false = some (str "sub ", str "ls") ∧
    preprocess_command_for_cwd envC stC 0 (str "cd sub && ls") false
      = ({ base := str "/sandbox", cwd := [(0, str "/sandbox/sub")] },
         some (str "ls"), none) ∧
    CwdStore.get
        (preprocess_command_for_cwd envC stC 0 (str "cd sub && ls") false).1 0
      = str "/sandbox/sub" := by
  refine ⟨by decide, ?_, by decide⟩
  exact ((intercept_cd_with_arg envC stC 0 (str "cd sub && ls") false
      (str "sub ") (str "ls") (by decide)).2).trans (by decide)

/-! ## Claim C2 — strict order and stop-on-failure of the Plan Executor -/

/-- A well-formed trace: every stop notice immediately follows the report of a
step with nonzero exit code, carries that step's index, and is the final
event — nothing is emitted (hence no step is attempted) after it. -/
def goodTrace : List Event → Prop
  | [] => True
  | .report i e _ :: .stop j :: rest => i = j ∧ e ≠ 0 ∧ rest = []
  | .stop _ :: _ => False
  | _ :: rest => goodTrace rest

/-- The indices at which steps are started (an interception acknowledgement or
an invocation header), in emission order. -/
def stepStarts : List Event → List Nat
  | [] => []
  | .ack i _ :: r => i :: stepStarts r
  | .header i _ :: r => i :: stepStarts r
  | _ :: r => stepStarts r

theorem goodTrace_cons_report (i : Nat) (e : Int) (m : PyStr) (T : List Event)
    (h : ∀ j, T.head? ≠ some (Event.stop j)) :
    goodTrace (.report i e m :: T) ↔ goodTrace T := by
  cases T with
  | nil => exact Iff.rfl
  | cons ev rest =>
    cases ev with
    | planning n => exact Iff.rfl
    | ack j m' => exact Iff.rfl
    | header j c => exact Iff.rfl
    | report j e' m' => exact Iff.rfl
    | stop j => exact absurd rfl (h j)

theorem runPlanSteps_head_no_stop (env : Env) (key : Int) (is_windows : Bool)
    (os_name : PyStr) (run : PyStr → PyStr → CommandResult)
    (plan : List PyStr) (st : CwdStoreSt) (idx : Nat) (j : Nat) :
    (runPlanSteps env key is_windows os_name run st idx plan).head?
      ≠ some (.stop j) := by
  cases plan with
  | nil => simp [runPlanSteps]
  | cons cmd rest =>
    simp only [runPlanSteps]
    split
    · simp
    · simp

theorem goodTrace_runPlanSteps (env : Env) (key : Int) (is_windows : Bool)
    (os_name : PyStr) (run : PyStr → PyStr → CommandResult) :
    ∀ (plan : List PyStr) (st : CwdStoreSt) (idx : Nat),
      goodTrace (runPlanSteps env key is_windows os_name run st idx plan) := by
  intro plan
  induction plan with
  | nil =>
    intro st idx
    simp [runPlanSteps, goodTrace]
  | cons cmd rest ih =>
    intro st idx
    simp only [runPlanSteps]
    split
    · exact ih _ (idx + 1)
    · generalize run
        (if truthy (preprocess_command_for_cwd env st key cmd is_windows).2.1 = true
         then (preprocess_command_for_cwd env st key cmd is_windows).2.1.getD []
         else cmd)
        (CwdStore.get (preprocess_command_for_cwd env st key cmd is_windows).1 key)
        = R
      by_cases hfail : R.exit_code ≠ 0
      · rw [if_pos hfail]
        exact ⟨rfl, hfail, rfl⟩
      · rw [if_neg hfail]
        exact (goodTrace_cons_report _ _ _ _
          (fun j => runPlanSteps_head_no_stop env key is_windows os_name run
            rest _ (idx + 1) j)).mpr (ih _ (idx + 1))

/-- Whenever a step report with nonzero exit code appears anywhere in the
step-loop trace, what follows it is exactly the stop notice for that step —
the stop notice occurs, immediately, and the trace (hence the plan) ends
there, at any failing position, not just the first step. -/
theorem report_stop_runPlanSteps (env : Env) (key : Int) (is_windows : Bool)
    (os_name : PyStr) (run : PyStr → PyStr → CommandResult) :
    ∀ (plan : List PyStr) (st : CwdStoreSt) (idx : Nat)
      (pre : List Event) (i : Nat) (e : Int) (m : PyStr) (post : List Event),
      runPlanSteps env key is_windows os_name run st idx plan
        = pre ++ .report i e m :: post →
      e ≠ 0 → post = [.stop i] := by
  intro plan
  induction plan with
  | nil =>
    intro st idx pre i e m post hT he
    exact absurd hT (by simp [runPlanSteps])
  | cons cmd rest ih =>
    intro st idx pre i e m post hT he
    simp only [runPlanSteps] at hT
    split at hT
    · cases pre with
      | nil => simp at hT
      | cons p pre' =>
        rw [List.cons_append] at hT
        exact ih _ (idx + 1) pre' i e m post ((List.cons.injEq _ _ _ _).mp hT).2 he
    · generalize hR : run
        (if truthy (preprocess_command_for_cwd env st key cmd is_windows).2.1 = true
         then (preprocess_command_for_cwd env st key cmd is_windows).2.1.getD []
         else cmd)
        (CwdStore.get (preprocess_command_for_cwd env st key cmd is_windows).1 key)
        = R at hT
      by_cases hfail : R.exit_code ≠ 0
      · rw [if_pos hfail] at hT
        rcases pre with _ | ⟨p, _ | ⟨q, _ | ⟨r', pre'⟩⟩⟩
        · simp only [List.nil_append, List.cons.injEq] at hT
          exact absurd hT.1 (by simp)
        · simp only [List.cons_append, List.nil_append, List.cons.injEq] at hT
          obtain ⟨-, h2, h3⟩ := hT
          obtain ⟨hidx, -, -⟩ := Event.report.inj h2
          rw [← h3, hidx]
        · simp only [List.cons_append, List.nil_append, List.cons.injEq] at hT
          exact absurd hT.2.2.1 (by simp)
        · simp only [List.cons_append, List.cons.injEq] at hT
          exact absurd hT.2.2.2 (by simp)
      · rw [if_neg hfail] at hT
        cases pre with
        | nil =>
          simp only [List.nil_append, List.cons.injEq] at hT
          exact absurd hT.1 (by simp)
        | cons p pre' =>
          rw [List.cons_append] at hT
          have h2 := ((List.cons.injEq _ _ _ _).mp hT).2
          cases pre' with
          | nil =>
            simp only [List.nil_append, List.cons.injEq] at h2
            obtain ⟨-, hexit, -⟩ := Event.report.inj h2.1
            omega
          | cons q pre'' =>
            rw [List.cons_append] at h2
            exact ih _ (idx + 1) pre'' i e m post
              ((List.cons.injEq _ _ _ _).mp h2).2 he

theorem stepStarts_runPlanSteps (env : Env) (key : Int) (is_windows : Bool)
    (os_name : PyStr) (run : PyStr → PyStr → CommandResult) :
    ∀ (plan : List PyStr) (st : CwdStoreSt) (idx : Nat),
      ∃ k, k ≤ plan.length ∧
        stepStarts (runPlanSteps env key is_windows os_name run st idx plan)
          = List.range' idx k := by
  intro plan
  induction plan with
  | nil =>
    intro st idx
    exact ⟨0, Nat.le_refl 0, rfl⟩
  | cons cmd rest ih =>
    intro st idx
    simp only [runPlanSteps]
    split
    · obtain ⟨k, hk, he⟩ :=
        ih (preprocess_command_for_cwd env st key cmd is_windows).1 (idx + 1)
      exact ⟨k + 1, Nat.succ_le_succ hk, congrArg (List.cons idx) he⟩
    · generalize run
        (if truthy (preprocess_command_for_cwd env st key cmd is_windows).2.1 = true
         then (preprocess_command_for_cwd env st key cmd is_windows).2.1.getD []
         else cmd)
        (CwdStore.get (preprocess_command_for_cwd env st key cmd is_windows).1 key)
        = R
      by_cases hfail : R.exit_code ≠ 0
      · rw [if_pos hfail]
        exact ⟨1, Nat.succ_le_succ (Nat.zero_le _), rfl⟩
      · rw [if_neg hfail]
        obtain ⟨k, hk, he⟩ :=
          ih (preprocess_command_for_cwd env st key cmd is_windows).1 (idx + 1)
        exact ⟨k + 1, Nat.succ_le_succ hk, congrArg (List.cons idx) he⟩

/-- **C2.** Steps of a multi-step plan are executed strictly in order (the
started step indices form `[1, 2, …, k]` for some `k ≤ length`); after a step
whose invocation returned a nonzero exit code — at *any* position, not just
the first — the executor emits exactly that step's report followed by the
stop notice and nothing else, so the stop notice occurs and no subsequent
step is ever attempted; conversely every stop notice immediately follows such
a failing report and ends the trace; and a plan whose first step is an
invocation with nonzero exit produces exactly the planning notice, that
step's header and report, and the stop notice. -/
theorem plan_stop_on_error (env : Env) (key : Int) (is_windows : Bool)
    (os_name : PyStr) (run : PyStr → PyStr → CommandResult) (st : CwdStoreSt)
    (plan : List PyStr) :
    goodTrace (executePlan env key is_windows os_name run st plan) ∧
    (∀ (pre : List Event) (i : Nat) (e : Int) (m : PyStr) (post : List Event),
      executePlan env key is_windows os_name run st plan
        = pre ++ .report i e m :: post →
      e ≠ 0 → post = [.stop i]) ∧
    (∃ k, k ≤ plan.length ∧
      stepStarts (executePlan env key is_windows os_name run st plan)
        = List.range' 1 k) ∧
    (∀ cmd rest, plan = cmd :: rest →
      (truthy (preprocess_command_for_cwd env st key cmd is_windows).2.2
        && ! truthy (preprocess_command_for_cwd env st key cmd is_windows).2.1)
          = false →
      ∀ r : CommandResult,
        r = run
              (if truthy (preprocess_command_for_cwd env st key cmd is_windows).2.1
               then (preprocess_command_for_cwd env st key cmd is_windows).2.1.getD []
               else cmd)
              (CwdStore.get
                (preprocess_command_for_cwd env st key cmd is_windows).1 key) →
        r.exit_code ≠ 0 →
        executePlan env key is_windows os_name run st plan
          = [.planning plan.length, .header 1 cmd,
             .report 1 r.exit_code (stepReportMsg os_name r), .stop 1]) := by
  refine ⟨goodTrace_runPlanSteps env key is_windows os_name run plan st 1, ?_,
    stepStarts_runPlanSteps env key is_windows os_name run plan st 1, ?_⟩
  · intro pre i e m post hT he
    cases pre with
    | nil => simp [executePlan] at hT
    | cons p pre' =>
      rw [List.cons_append] at hT
      exact report_stop_runPlanSteps env key is_windows os_name run plan st 1
        pre' i e m post ((List.cons.injEq _ _ _ _).mp hT).2 he
  intro cmd rest hplan hcond r hr hexit
  subst hplan
  subst hr
  simp only [executePlan, runPlanSteps]
  rw [if_neg (by simp [hcond]), if_pos hexit]

/-- Witness for C2: the plan `["mkdir x", "cd x", "pwd"]` under an invoker
that fails every command produces exactly the planning notice, step 1's
header and report, and the stop notice — steps 2 and 3 are never attempted. -/
theorem plan_stop_on_error_witness :
    executePlan envC 0 false (str "Linux")
        (fun c _ => ⟨c, 1, [], []⟩) stC
        [str "mkdir x", str "cd x", str "pwd"]
      = [.planning 3, .header 1 (str "mkdir x"),
         .report 1 1 (str "OS: Linux\nexit=1\n"), .stop 1] := by
  have h := (plan_stop_on_error envC 0 false (str "Linux")
      (fun c _ => ⟨c, 1, [], []⟩) stC
      [str "mkdir x", str "cd x", str "pwd"]).2.2.2
      (str "mkdir x") [str "cd x", str "pwd"] rfl (by decide)
      ⟨str "mkdir x", 1, [], []⟩ (by decide) (by decide)
  exact h.trans (by decide)

end MyComputer
